import Mathlib

/-!
Verification development for the SmartSchedulerPOC repository.

The definitions below are a shallow embedding of the Python sources:
  * `src/clinic_chatbot/utils/validators.py`
  * `src/clinic_chatbot/models/entities.py`
  * `src/clinic_chatbot/models/conversation.py` (`ConversationManager.update_entities`)
  * `src/clinic_chatbot/services/entity_extractor.py`
    (`SmartEntityMerger.merge_entities`, `EntityExtractor.extract_and_merge`,
     `EntityExtractor.get_missing_fields_question`)
  * `src/calender-integration/calendar_avalibility.py` (`suggest_meeting_times`)

Modelling conventions:
  * Python strings are Lean `String`s; `None` is `Option.none`; a dictionary
    over a declared closed key set is a structure of `Option` fields where a
    key is present iff the field is `some` (a key present with value `None`
    behaves in every code path of the sources like an absent key, except for
    the truthiness of the enclosing dict, which no claim depends on).
  * Python truthiness: a string is truthy iff non-empty, an int iff non-zero,
    a dict iff it has at least one key, `None` is falsy, a pydantic model
    object is truthy (only `None` is falsy in those positions).
  * The regular expressions of the source are unfolded into explicit character
    scans.  `\s` / `str.strip` are modelled over the ASCII whitespace set
    (space, \t, \n, \r, \x0b, \x0c); `\d` over ASCII digits; `$` as
    end-of-string.  The claims never exercise the exotic corners (non-ASCII
    digits, a trailing newline before `$`).
  * Wall-clock dependence (`datetime.now()` in `normalize_date_expression`) is
    made explicit as a `DateEnv` parameter holding the strings the source
    computes from the current date.
  * Times in the availability engine are minutes (`Nat`) in the single fixed
    working timezone; busy periods are pairs of minute values.  The `while`
    loop is embedded with an explicit fuel argument that is always sufficient.
-/

/-! ### Python string primitives -/

/-- ASCII whitespace, the character class that both `\s` and `str.strip()`
match on the inputs relevant here. -/
def isPyWhitespace (c : Char) : Bool :=
  c.toNat = 32 || c.toNat = 9 || c.toNat = 10 || c.toNat = 13 ||
  c.toNat = 11 || c.toNat = 12

/-- Does `hay` start with `needle`? (helper for the substring test). -/
def listStarts : List Char → List Char → Bool
  | [], _ => true
  | _ :: _, [] => false
  | a :: as, b :: bs => a == b && listStarts as bs

/-- Is `needle` a contiguous substring of `hay`? (Python `needle in hay`). -/
def listSub (needle : List Char) : List Char → Bool
  | [] => needle.isEmpty
  | l@(_ :: rest) => listStarts needle l || listSub needle rest

/-- Python `needle in hay` on strings. -/
def containsSub (hay needle : String) : Bool :=
  listSub needle.toList hay.toList

/-- Python `str.strip()` restricted to the ASCII whitespace set. -/
def pyStrip (s : String) : String :=
  ⟨((s.toList.dropWhile isPyWhitespace).reverse.dropWhile isPyWhitespace).reverse⟩

/-- Zero-padded two-digit formatting, Python `f"{n:02d}"` for `n < 100`. -/
def pad2 (n : Nat) : String :=
  if n < 10 then "0" ++ toString n else toString n

/-- Numeric value of a list of decimal digit characters (Python `int`). -/
def digitsToNat (l : List Char) : Nat :=
  l.foldl (fun a c => a * 10 + (c.toNat - 48)) 0

/-- ASCII lower-casing of one character (the sources only ever lower-case
ASCII content; CJK characters are case-invariant). -/
def lowerChar (c : Char) : Char :=
  if 'A' ≤ c && c ≤ 'Z' then Char.ofNat (c.toNat + 32) else c

/-- ASCII upper-casing of one character. -/
def upperChar (c : Char) : Char :=
  if 'a' ≤ c && c ≤ 'z' then Char.ofNat (c.toNat - 32) else c

/-- Python `str.lower()` over the ASCII range. -/
def pyLower (s : String) : String := ⟨s.toList.map lowerChar⟩

/-- Python `str.upper()` over the ASCII range. -/
def pyUpper (s : String) : String := ⟨s.toList.map upperChar⟩

/-! ### validators.py -/

/-- `validators.is_valid_chinese_name`: length in [2,10] and either all
CJK-unified characters (`[一-龥]+`) or all Latin letters/whitespace
(`[a-zA-Z\s]+`). -/
def is_valid_chinese_name (name : String) : Bool :=
  if name.isEmpty || name.length < 2 || name.length > 10 then false
  else
    (name.toList.all fun c => 0x4e00 ≤ c.toNat && c.toNat ≤ 0x9fa5) ||
    (name.toList.all fun c => c.isAlpha || isPyWhitespace c)

/-- `re.sub(r'[\s\-]', '', phone)`. -/
def removeSpaceDash (s : String) : String :=
  ⟨s.toList.filter fun c => !(isPyWhitespace c || c = '-')⟩

/-- `re.sub(r'^(\+852|852)', '', clean_phone)`: the anchored alternation
removes one leading `+852`, else one leading `852`, else nothing. -/
def strip852 (s : String) : String :=
  match s.toList with
  | '+' :: '8' :: '5' :: '2' :: rest => ⟨rest⟩
  | '8' :: '5' :: '2' :: rest => ⟨rest⟩
  | _ => s

/-- `re.match(r'^[2-9]\d{7}$', s)`: 8 characters, the first in `2`..`9`,
the remaining 7 decimal digits. -/
def matchesHK (s : String) : Bool :=
  match s.toList with
  | c :: rest => ('2' ≤ c && c ≤ '9') && rest.length = 7 && rest.all Char.isDigit
  | [] => false

/-- `validators.validate_phone_number`. -/
def validate_phone_number (phone : String) : Bool × String :=
  if phone.isEmpty then (false, "Phone number cannot be empty")
  else
    let clean_phone := strip852 (removeSpaceDash phone)
    if matchesHK clean_phone then (true, clean_phone)
    else (false, "Please provide a valid Hong Kong phone number.")

/-- `validators.validate_policy_number`: `^[A-Za-z0-9]{6,20}$`, normalized to
upper case. -/
def validate_policy_number (policy : String) : Bool × String :=
  if policy.isEmpty then (false, "Policy number cannot be empty")
  else if (6 ≤ policy.length && policy.length ≤ 20) &&
          policy.toList.all (fun c => c.isAlpha || c.isDigit) then
    (true, pyUpper policy)
  else (false, "Policy number format is incorrect, please check and re-enter")

/-- `validators.get_clinic_appointment_types`. -/
def get_clinic_appointment_types : List String :=
  ["普通科", "内科", "外科", "儿科", "妇产科", "眼科", "耳鼻喉科", "口腔科", "皮肤科",
   "骨科", "泌尿科", "心血管科", "呼吸科", "消化科", "内分泌科", "肿瘤科",
   "精神科", "康复科", "中医科", "疼痛科", "麻醉科", "营养科", "检验科", "影像科"]

/-- `validators.validate_appointment_type`: first catalog entry that is a
substring of the input or contains it wins; with no match the raw input is
still accepted (the source's lower-cased copy of the input is unused). -/
def validate_appointment_type (apt_type : String) (valid_types : List String) :
    Bool × String :=
  if apt_type.isEmpty then (false, "Appointment type cannot be empty")
  else
    match valid_types.find? (fun vt =>
        containsSub apt_type vt || containsSub vt apt_type) with
    | some vt => (true, vt)
    | none => (true, apt_type)

/-- `validators.validate_age_range` at its default bounds 0/150. -/
def validate_age_range (age : Int) : Bool × String :=
  if age < 0 then (false, "Age cannot be less than 0 years")
  else if age > 150 then (false, "Age cannot be greater than 150 years")
  else (true, "")

/-- `validators.validate_gender`. -/
def validate_gender (gender : String) : Bool × String :=
  if gender.isEmpty then (true, "")
  else if gender = "男" || gender = "女" || gender = "其他" then (true, gender)
  else if pyLower gender = "male" || pyLower gender = "m" then (true, "男")
  else if pyLower gender = "female" || pyLower gender = "f" then (true, "女")
  else (false, "Valid options are: 男、女、其他")

/-! ### Date / time-slot normalization (validators.py) -/

/-- The strings the source computes from `datetime.now()` inside
`normalize_date_expression`, made an explicit parameter: `strftime("%Y-%m-%d")`
of today, tomorrow, the day after tomorrow and one week ahead, plus
`today.year`. -/
structure DateEnv where
  todayStr : String := ""
  tomorrowStr : String := ""
  dayAfterStr : String := ""
  nextWeekStr : String := ""
  todayYear : Nat := 0
deriving Repr, DecidableEq

/-- Regex fragment `(\d{1,2})S` for a separator character `S`: greedily take
two digits, else one, then require the separator; returns the captured value
and the remaining characters. -/
def digits2Sep (sep : Char) : List Char → Option (Nat × List Char)
  | x :: y :: rest =>
    if x.isDigit then
      if y.isDigit then
        match rest with
        | c :: rest2 => if c = sep then some (digitsToNat [x, y], rest2) else none
        | [] => none
      else if y = sep then some (digitsToNat [x], rest)
      else none
    else none
  | _ => none

/-- Regex fragment `(\d{1,2})` at the end of a pattern: greedily take two
digits, else one. -/
def digits1or2 : List Char → Option Nat
  | x :: y :: _ =>
    if x.isDigit then
      if y.isDigit then some (digitsToNat [x, y]) else some (digitsToNat [x])
    else none
  | [x] => if x.isDigit then some (digitsToNat [x]) else none
  | [] => none

/-- Match `(\d{4})-(\d{1,2})-(\d{1,2})` at the head of the character list.
Returns (year digit characters, month value, day value). -/
def p1At : List Char → Option (List Char × Nat × Nat)
  | a :: b :: c :: d :: '-' :: rest =>
    if a.isDigit && b.isDigit && c.isDigit && d.isDigit then
      match digits2Sep '-' rest with
      | some (m, rest2) =>
        match digits1or2 rest2 with
        | some dd => some ([a, b, c, d], m, dd)
        | none => none
      | none => none
    else none
  | _ => none

/-- Match `(\d{1,2})月(\d{1,2})日` at the head of the character list. -/
def p2At (l : List Char) : Option (Nat × Nat) :=
  match digits2Sep '月' l with
  | some (m, rest) =>
    match digits2Sep '日' rest with
    | some (dd, _) => some (m, dd)
    | none => none
  | none => none

/-- Match `(\d{1,2})/(\d{1,2})` at the head of the character list. -/
def p3At (l : List Char) : Option (Nat × Nat) :=
  match digits2Sep '/' l with
  | some (m, rest) =>
    match digits1or2 rest with
    | some dd => some (m, dd)
    | none => none
  | none => none

/-- `re.search` for a head-matcher `p`: try every start position, leftmost
match wins. -/
def searchWith {α : Type} (p : List Char → Option α) : List Char → Option α
  | [] => p []
  | l@(_ :: rest) =>
    match p l with
    | some r => some r
    | none => searchWith p rest

/-- `validators.normalize_date_expression`, with the wall clock supplied as
`env`.  Lower-cases and strips, resolves the four relative keywords, then
tries the three date patterns in order, and finally echoes the (lowered,
stripped) expression unchanged. -/
def normalize_date_expression (env : DateEnv) (raw : String) : Option String :=
  if raw.isEmpty then none
  else
    let date_expr := pyStrip (pyLower raw)
    if containsSub date_expr "今天" || containsSub date_expr "今日" then
      some env.todayStr
    else if containsSub date_expr "明天" || containsSub date_expr "明日" then
      some env.tomorrowStr
    else if containsSub date_expr "后天" then some env.dayAfterStr
    else if containsSub date_expr "下周" then some env.nextWeekStr
    else
      match searchWith p1At date_expr.toList with
      | some (y, m, d) => some (⟨y⟩ ++ "-" ++ pad2 m ++ "-" ++ pad2 d)
      | none =>
        match searchWith p2At date_expr.toList with
        | some (m, d) =>
          some (toString env.todayYear ++ "-" ++ pad2 m ++ "-" ++ pad2 d)
        | none =>
          match searchWith p3At date_expr.toList with
          | some (m, d) =>
            some (toString env.todayYear ++ "-" ++ pad2 m ++ "-" ++ pad2 d)
          | none => some date_expr

/-- `validators.normalize_time_slot`: lower-case and strip, look the synonym
table up in insertion order, then the digit-substring buckets, else echo. -/
def normalize_time_slot (raw : String) : Option String :=
  if raw.isEmpty then none
  else
    let t := pyStrip (pyLower raw)
    if containsSub t "早上" then some "上午"
    else if containsSub t "早晨" then some "上午"
    else if containsSub t "上午" then some "上午"
    else if containsSub t "中午" then some "下午"
    else if containsSub t "下午" then some "下午"
    else if containsSub t "晚上" then some "晚上"
    else if containsSub t "夜间" then some "晚上"
    else if containsSub t "9" || containsSub t "10" || containsSub t "11" then
      some "上午"
    else if containsSub t "14" || containsSub t "15" || containsSub t "16" ||
            containsSub t "17" then
      some "下午"
    else if containsSub t "18" || containsSub t "19" || containsSub t "20" then
      some "晚上"
    else some t

/-! ### Incoming field maps and composite validators -/

/-- Python truthiness of an optional string value. -/
def truthyOptStr : Option String → Bool
  | none => false
  | some s => !s.isEmpty

/-- Python truthiness of an optional int value (`0` is falsy). -/
def truthyOptInt : Option Int → Bool
  | none => false
  | some n => n != 0

/-- The incoming `patient_info` sub-dictionary over its declared keys;
a key is present iff the field is `some`. -/
structure PatientDict where
  name : Option String := none
  age : Option Int := none
  gender : Option String := none
deriving Repr, DecidableEq

/-- Python truthiness of the `patient_info` dict (non-empty key set). -/
def PatientDict.truthy (d : PatientDict) : Bool :=
  d.name.isSome || d.age.isSome || d.gender.isSome

/-- The incoming `available_time` sub-dictionary over its declared keys. -/
structure TimeDict where
  date : Option String := none
  time_slot : Option String := none
deriving Repr, DecidableEq

/-- Python truthiness of the `available_time` dict (non-empty key set). -/
def TimeDict.truthy (d : TimeDict) : Bool :=
  d.date.isSome || d.time_slot.isSome

/-- `validators.validate_patient_info`.  The source mutates the dict in place
(normalizing `gender`); the embedding returns the updated dict alongside
`(all_valid, errors)`. -/
def validate_patient_info (d : PatientDict) : Bool × List String × PatientDict :=
  let nameErrs :=
    match d.name with
    | some n => if !n.isEmpty && !is_valid_chinese_name n then ["Name format is incorrect"] else []
    | none => []
  let ageErrs :=
    match d.age with
    | some a =>
      let (ok, msg) := validate_age_range a
      if !ok then [msg] else []
    | none => []
  let (genderErrs, d') :=
    match d.gender with
    | some g =>
      if !g.isEmpty then
        let (ok, res) := validate_gender g
        if !ok then ([res], d) else ([], { d with gender := some res })
      else ([], d)
    | none => ([], d)
  let errors := nameErrs ++ ageErrs ++ genderErrs
  (errors.isEmpty, errors, d')

/-- `validators.validate_preferred_time`, with the wall clock as `env`.
Normalizes `date` (appending an error when the normalized value is falsy) and
`time_slot`, returning the updated dict. -/
def validate_preferred_time (env : DateEnv) (d : TimeDict) :
    Bool × List String × TimeDict :=
  let (dateErrs, d1) :=
    match d.date with
    | some dt =>
      if !dt.isEmpty then
        match normalize_date_expression env dt with
        | some nd =>
          if !nd.isEmpty then ([], { d with date := some nd })
          else (["Date format cannot be recognized, please provide a specific date"], d)
        | none => (["Date format cannot be recognized, please provide a specific date"], d)
      else ([], d)
    | none => ([], d)
  let d2 :=
    match d1.time_slot with
    | some ts =>
      if !ts.isEmpty then
        match normalize_time_slot ts with
        | some ns => if !ns.isEmpty then { d1 with time_slot := some ns } else d1
        | none => d1
      else d1
    | none => d1
  (dateErrs.isEmpty, dateErrs, d2)

/-! ### entities.py -/

/-- `models.entities.PatientInfo` (a pydantic model; plain optional fields). -/
structure PatientInfo where
  name : Option String := none
  age : Option Int := none
  gender : Option String := none
deriving Repr, DecidableEq

/-- `models.entities.PreferredTime`. -/
structure PreferredTime where
  date : Option String := none
  time_slot : Option String := none
deriving Repr, DecidableEq

/-- `models.entities.BookingEntities`; the defaults mirror the source
(`patient_info` and `available_time` default to fresh empty sub-models). -/
structure BookingEntities where
  booking_type : Option String := none
  patient_info : Option PatientInfo := some {}
  policy_number : Option String := none
  available_time : Option PreferredTime := some {}
  phone_number : Option String := none
deriving Repr, DecidableEq

/-- `BookingEntities.get_missing_fields`: the source appends each label under
its own falsiness test, in this fixed order. -/
def get_missing_fields (e : BookingEntities) : List String :=
  (if !truthyOptStr e.booking_type then ["預約類型"] else []) ++
  (if (match e.patient_info with
       | none => true
       | some p => !truthyOptStr p.name) then ["病人資訊"] else []) ++
  (if !truthyOptStr e.policy_number then ["保單號碼"] else []) ++
  (if (match e.available_time with
       | none => true
       | some t => !truthyOptStr t.date) then ["可預約時間"] else []) ++
  (if !truthyOptStr e.phone_number then ["電話號碼"] else [])

/-- `BookingEntities.is_complete`. -/
def is_complete (e : BookingEntities) : Bool :=
  (get_missing_fields e).isEmpty

/-! ### entity_extractor.py — SmartEntityMerger.merge_entities

The source works on two local names: `merged` (a deep copy of
`current_entities`, mutated in place) and `all_errors`.  To make the frame
property "the input object is never mutated" expressible, the embedding
threads an explicit state holding the caller's object (`current`) alongside
the locals; every assignment of the source writes `merged` / `errors` only,
exactly as every `setattr` / `append` in the source targets the copy. -/

structure MergeState where
  current : BookingEntities
  merged : BookingEntities
  errors : List String
deriving Repr, DecidableEq

/-- The `key == "booking_type"` branch of the merge loop (skipping falsy
values as the loop head does). -/
def mergeKeyBookingType (st : MergeState) (v : Option String) : MergeState :=
  match v with
  | none => st
  | some s =>
    if s.isEmpty then st
    else
      let (is_valid, result) := validate_appointment_type s get_clinic_appointment_types
      if is_valid then { st with merged := { st.merged with booking_type := some result } }
      else { st with errors := st.errors ++ ["booking_type: " ++ result] }

/-- The `key == "phone_number"` branch of the merge loop. -/
def mergeKeyPhoneNumber (st : MergeState) (v : Option String) : MergeState :=
  match v with
  | none => st
  | some s =>
    if s.isEmpty then st
    else
      let (is_valid, result) := validate_phone_number s
      if is_valid then { st with merged := { st.merged with phone_number := some result } }
      else { st with errors := st.errors ++ ["phone_number: " ++ result] }

/-- The `key == "policy_number"` branch of the merge loop. -/
def mergeKeyPolicyNumber (st : MergeState) (v : Option String) : MergeState :=
  match v with
  | none => st
  | some s =>
    if s.isEmpty then st
    else
      let (is_valid, result) := validate_policy_number s
      if is_valid then { st with merged := { st.merged with policy_number := some result } }
      else { st with errors := st.errors ++ ["policy_number: " ++ result] }

/-- The updates the source's inner `for patient_key, patient_value in
patient_copy.items()` loop performs on `merged.patient_info` (only truthy
values are written). -/
def applyPatient (p : PatientInfo) (d : PatientDict) : PatientInfo :=
  let p := if truthyOptStr d.name then { p with name := d.name } else p
  let p := if truthyOptInt d.age then { p with age := d.age } else p
  if truthyOptStr d.gender then { p with gender := d.gender } else p

/-- The `key == "patient_info"` branch: create the sub-model when the current
one is `None`, run the composite validator on a copy of the incoming dict,
and either record tagged errors or write every truthy validated sub-value. -/
def mergeKeyPatientInfo (st : MergeState) (v : Option PatientDict) : MergeState :=
  match v with
  | none => st
  | some d =>
    if !d.truthy then st
    else
      let st :=
        if st.merged.patient_info.isNone then
          { st with merged := { st.merged with patient_info := some {} } }
        else st
      let (is_valid, errs, patient_copy) := validate_patient_info d
      if !is_valid then
        { st with errors := st.errors ++ errs.map (fun e => "patient_info: " ++ e) }
      else
        let pNew := applyPatient (st.merged.patient_info.getD {}) patient_copy
        { st with merged := { st.merged with patient_info := some pNew } }

/-- The updates of the source's inner `for time_key, time_value in
time_copy.items()` loop. -/
def applyTime (t : PreferredTime) (d : TimeDict) : PreferredTime :=
  let t := if truthyOptStr d.date then { t with date := d.date } else t
  if truthyOptStr d.time_slot then { t with time_slot := d.time_slot } else t

/-- The `key == "available_time"` branch. -/
def mergeKeyAvailableTime (env : DateEnv) (st : MergeState) (v : Option TimeDict) :
    MergeState :=
  match v with
  | none => st
  | some d =>
    if !d.truthy then st
    else
      let st :=
        if st.merged.available_time.isNone then
          { st with merged := { st.merged with available_time := some {} } }
        else st
      let (is_valid, errs, time_copy) := validate_preferred_time env d
      if !is_valid then
        { st with errors := st.errors ++ errs.map (fun e => "available_time: " ++ e) }
      else
        let tNew := applyTime (st.merged.available_time.getD {}) time_copy
        { st with merged := { st.merged with available_time := some tNew } }

/-- The incoming field map over the recognized keys; a key is present iff the
field is `some`.  The branches write disjoint parts of the state, so the
merged entities do not depend on the dict's key order; the embedding fixes
the error-accumulation order to the order of the source's `if`/`elif` chain. -/
structure IncomingEntities where
  booking_type : Option String := none
  phone_number : Option String := none
  policy_number : Option String := none
  patient_info : Option PatientDict := none
  available_time : Option TimeDict := none
deriving Repr, DecidableEq

/-- Python truthiness of the whole incoming dict. -/
def IncomingEntities.truthy (i : IncomingEntities) : Bool :=
  i.booking_type.isSome || i.phone_number.isSome || i.policy_number.isSome ||
  i.patient_info.isSome || i.available_time.isSome

/-- The body of `SmartEntityMerger.merge_entities` after the initial
`merged = current_entities.copy(deep=True)`, as a state transformer. -/
def merge_run (env : DateEnv) (i : IncomingEntities) (st : MergeState) : MergeState :=
  let st := mergeKeyBookingType st i.booking_type
  let st := mergeKeyPhoneNumber st i.phone_number
  let st := mergeKeyPolicyNumber st i.policy_number
  let st := mergeKeyPatientInfo st i.patient_info
  mergeKeyAvailableTime env st i.available_time

/-- `SmartEntityMerger.merge_entities`: deep-copy the current entities, fold
the incoming keys through the branch handlers, return `(merged, errors)`. -/
def merge_entities (env : DateEnv) (current_entities : BookingEntities)
    (new_entities : IncomingEntities) : BookingEntities × List String :=
  let st := merge_run env new_entities
    { current := current_entities, merged := current_entities, errors := [] }
  (st.merged, st.errors)

/-! ### conversation.py — ConversationManager.update_entities -/

/-- `ConversationManager.update_entities`: raw writes with no validation;
composite keys write each truthy sub-value, scalar keys write the truthy
value directly. -/
def update_entities (e : BookingEntities) (i : IncomingEntities) : BookingEntities :=
  let e :=
    match i.booking_type with
    | some s => if !s.isEmpty then { e with booking_type := some s } else e
    | none => e
  let e :=
    match i.phone_number with
    | some s => if !s.isEmpty then { e with phone_number := some s } else e
    | none => e
  let e :=
    match i.policy_number with
    | some s => if !s.isEmpty then { e with policy_number := some s } else e
    | none => e
  let e :=
    match i.patient_info with
    | some d =>
      let p := e.patient_info.getD {}
      let pNew : PatientInfo :=
        { name := if truthyOptStr d.name then d.name else p.name,
          age := if truthyOptInt d.age then d.age else p.age,
          gender := if truthyOptStr d.gender then d.gender else p.gender }
      { e with patient_info := some pNew }
    | none => e
  match i.available_time with
  | some d =>
    let t := e.available_time.getD {}
    let tNew : PreferredTime :=
      { date := if truthyOptStr d.date then d.date else t.date,
        time_slot := if truthyOptStr d.time_slot then d.time_slot else t.time_slot }
    { e with available_time := some tNew }
  | none => e

/-! ### entity_extractor.py — EntityExtractor -/

/-- `EntityExtractor.extract_and_merge`, with the external LLM extraction
result supplied as a parameter (`none` models an unparseable/`None` result;
an all-absent map models the falsy `{}` result).  Returns the success flag
and the conversation's entity record after the call. -/
def extract_and_merge (env : DateEnv) (entities : BookingEntities)
    (extracted : Option IncomingEntities) : Bool × BookingEntities :=
  match extracted with
  | none => (false, entities)
  | some i =>
    if !i.truthy then (false, entities)
    else
      let (merged_entities, _) := merge_entities env entities i
      (true, merged_entities)

/-- `EntityExtractor.get_missing_fields_question`, with the external question
generator supplied as the function `gen` (the source also passes conversation
context and an entity snapshot, which only shape the phrasing). -/
def get_missing_fields_question (e : BookingEntities)
    (gen : List String → String) : String :=
  let missing := get_missing_fields e
  if missing.isEmpty then "" else gen missing

/-! ### calendar_avalibility.py — suggest_meeting_times

Times are minutes (`Nat`) in the single working timezone (the source converts
everything into `Asia/Hong_Kong` before comparing, so one common axis is
faithful); a busy period is a `(start, end)` pair of minutes.  The `while`
loop advances `current` by the slot duration each iteration; it is embedded
with a fuel argument, and the top-level wrapper passes fuel that is always
sufficient (each iteration requires `current + 60 ≤ time_max`, so at most
`time_max` iterations happen). -/

def SUGGESTION_DURATION_MINUTES : Nat := 60
def BUSINESS_HOURS_START : Nat := 9
def BUSINESS_HOURS_END : Nat := 18

/-- `datetime.hour` of a minute timestamp. -/
def hourOf (t : Nat) : Nat := t / 60 % 24

/-- The rounding step: `time_min` is bumped to the next full hour when it
carries sub-hour precision. -/
def roundUpHour (t : Nat) : Nat :=
  if t % 60 = 0 then t else (t / 60 + 1) * 60

/-- The inner busy-overlap scan: `busy_start < current + slot_duration and
busy_end > current` for some busy period. -/
def hasOverlap (busy : List (Nat × Nat)) (s e : Nat) : Bool :=
  busy.any fun b => b.1 < e && s < b.2

/-- The `while current + slot_duration <= time_max` loop. -/
def suggestLoop (busy : List (Nat × Nat)) (time_max : Nat) :
    Nat → Nat → List Nat
  | _, 0 => []
  | current, fuel + 1 =>
    if current + SUGGESTION_DURATION_MINUTES ≤ time_max then
      let rest := suggestLoop busy time_max (current + SUGGESTION_DURATION_MINUTES) fuel
      if BUSINESS_HOURS_START ≤ hourOf current && hourOf current < BUSINESS_HOURS_END then
        if hasOverlap busy current (current + SUGGESTION_DURATION_MINUTES) then rest
        else current :: rest
      else rest
    else []

/-- `suggest_meeting_times busy time_min time_max`: round `time_min` up to a
full hour, then run the slot loop. -/
def suggest_meeting_times (busy : List (Nat × Nat)) (time_min time_max : Nat) :
    List Nat :=
  suggestLoop busy time_max (roundUpHour time_min) time_max

/-! ### Proof layer: field-level view of the merge

The five branch handlers write disjoint fields.  The following derived forms
restate each handler as "new field value as a function of the incoming value
and the old field value" plus "errors contributed, a function of the incoming
value alone"; the characterization lemmas prove the handlers equal to these
forms.  All claims about the merge go through this view. -/

/-- Field update performed by a scalar branch of the merge loop. -/
def scalarUpd (validator : String → Bool × String) (v old : Option String) :
    Option String :=
  match v with
  | none => old
  | some s =>
    if s.isEmpty then old
    else if (validator s).1 then some (validator s).2 else old

/-- Errors contributed by a scalar branch of the merge loop. -/
def scalarErr (tag : String) (validator : String → Bool × String)
    (v : Option String) : List String :=
  match v with
  | none => []
  | some s =>
    if s.isEmpty then []
    else if (validator s).1 then [] else [tag ++ (validator s).2]

/-- Field update performed by the `patient_info` branch. -/
def piUpd (v : Option PatientDict) (old : Option PatientInfo) :
    Option PatientInfo :=
  match v with
  | none => old
  | some d =>
    if !d.truthy then old
    else
      let created := if old.isNone then some ({} : PatientInfo) else old
      if !(validate_patient_info d).1 then created
      else some (applyPatient (created.getD {}) (validate_patient_info d).2.2)

/-- Errors contributed by the `patient_info` branch. -/
def piErr (v : Option PatientDict) : List String :=
  match v with
  | none => []
  | some d =>
    if !d.truthy then []
    else if !(validate_patient_info d).1 then
      (validate_patient_info d).2.1.map (fun e => "patient_info: " ++ e)
    else []

/-- Field update performed by the `available_time` branch. -/
def atUpd (env : DateEnv) (v : Option TimeDict) (old : Option PreferredTime) :
    Option PreferredTime :=
  match v with
  | none => old
  | some d =>
    if !d.truthy then old
    else
      let created := if old.isNone then some ({} : PreferredTime) else old
      if !(validate_preferred_time env d).1 then created
      else some (applyTime (created.getD {}) (validate_preferred_time env d).2.2)

/-- Errors contributed by the `available_time` branch. -/
def atErr (env : DateEnv) (v : Option TimeDict) : List String :=
  match v with
  | none => []
  | some d =>
    if !d.truthy then []
    else if !(validate_preferred_time env d).1 then
      (validate_preferred_time env d).2.1.map (fun e => "available_time: " ++ e)
    else []

/-- Abbreviation for the appointment-type validator as the merge calls it. -/
def aptValidator (s : String) : Bool × String :=
  validate_appointment_type s get_clinic_appointment_types

lemma mergeKeyBookingType_char (st : MergeState) (v : Option String) :
    mergeKeyBookingType st v =
      { current := st.current,
        merged := { st.merged with booking_type := scalarUpd aptValidator v st.merged.booking_type },
        errors := st.errors ++ scalarErr "booking_type: " aptValidator v } := by
  obtain ⟨cur, mer, errs⟩ := st
  cases v with
  | none => simp [mergeKeyBookingType, scalarUpd, scalarErr]
  | some s =>
    by_cases hs : s.isEmpty <;>
      rcases hv : aptValidator s with ⟨ok, res⟩ <;> cases ok <;>
        simp [mergeKeyBookingType, scalarUpd, scalarErr, hs, aptValidator] at hv ⊢ <;>
          simp [hv]

lemma mergeKeyPhoneNumber_char (st : MergeState) (v : Option String) :
    mergeKeyPhoneNumber st v =
      { current := st.current,
        merged := { st.merged with phone_number := scalarUpd validate_phone_number v st.merged.phone_number },
        errors := st.errors ++ scalarErr "phone_number: " validate_phone_number v } := by
  obtain ⟨cur, mer, errs⟩ := st
  cases v with
  | none => simp [mergeKeyPhoneNumber, scalarUpd, scalarErr]
  | some s =>
    by_cases hs : s.isEmpty <;>
      rcases hv : validate_phone_number s with ⟨ok, res⟩ <;> cases ok <;>
        simp [mergeKeyPhoneNumber, scalarUpd, scalarErr, hs, hv]

lemma mergeKeyPolicyNumber_char (st : MergeState) (v : Option String) :
    mergeKeyPolicyNumber st v =
      { current := st.current,
        merged := { st.merged with policy_number := scalarUpd validate_policy_number v st.merged.policy_number },
        errors := st.errors ++ scalarErr "policy_number: " validate_policy_number v } := by
  obtain ⟨cur, mer, errs⟩ := st
  cases v with
  | none => simp [mergeKeyPolicyNumber, scalarUpd, scalarErr]
  | some s =>
    by_cases hs : s.isEmpty <;>
      rcases hv : validate_policy_number s with ⟨ok, res⟩ <;> cases ok <;>
        simp [mergeKeyPolicyNumber, scalarUpd, scalarErr, hs, hv]

lemma mergeKeyPatientInfo_char (st : MergeState) (v : Option PatientDict) :
    mergeKeyPatientInfo st v =
      { current := st.current,
        merged := { st.merged with patient_info := piUpd v st.merged.patient_info },
        errors := st.errors ++ piErr v } := by
  obtain ⟨cur, ⟨mbt, mpi, mpol, mat, mph⟩, errs⟩ := st
  cases v with
  | none => simp [mergeKeyPatientInfo, piUpd, piErr]
  | some d =>
    by_cases hd : d.truthy <;>
      rcases hv : validate_patient_info d with ⟨ok, es, dc⟩ <;> cases ok <;>
        cases mpi <;>
          simp [mergeKeyPatientInfo, piUpd, piErr, hd, hv]

lemma mergeKeyAvailableTime_char (env : DateEnv) (st : MergeState)
    (v : Option TimeDict) :
    mergeKeyAvailableTime env st v =
      { current := st.current,
        merged := { st.merged with available_time := atUpd env v st.merged.available_time },
        errors := st.errors ++ atErr env v } := by
  obtain ⟨cur, ⟨mbt, mpi, mpol, mat, mph⟩, errs⟩ := st
  cases v with
  | none => simp [mergeKeyAvailableTime, atUpd, atErr]
  | some d =>
    by_cases hd : d.truthy <;>
      rcases hv : validate_preferred_time env d with ⟨ok, es, dc⟩ <;> cases ok <;>
        cases mat <;>
          simp [mergeKeyAvailableTime, atUpd, atErr, hd, hv]

/-- The whole merge in field-level form: each output field is a function of
the corresponding incoming value and the prior field; the error list is the
concatenation of the per-branch contributions, a function of the incoming
map alone. -/
lemma merge_entities_char (env : DateEnv) (E : BookingEntities)
    (M : IncomingEntities) :
    merge_entities env E M =
      ({ booking_type := scalarUpd aptValidator M.booking_type E.booking_type,
         patient_info := piUpd M.patient_info E.patient_info,
         policy_number := scalarUpd validate_policy_number M.policy_number E.policy_number,
         available_time := atUpd env M.available_time E.available_time,
         phone_number := scalarUpd validate_phone_number M.phone_number E.phone_number },
       scalarErr "booking_type: " aptValidator M.booking_type ++
         scalarErr "phone_number: " validate_phone_number M.phone_number ++
         scalarErr "policy_number: " validate_policy_number M.policy_number ++
         piErr M.patient_info ++ atErr env M.available_time) := by
  obtain ⟨bt, pi, pol, at_, ph⟩ := E
  simp [merge_entities, merge_run, mergeKeyBookingType_char, mergeKeyPhoneNumber_char,
    mergeKeyPolicyNumber_char, mergeKeyPatientInfo_char, mergeKeyAvailableTime_char,
    List.append_assoc]

lemma applyPatient_idem (p : PatientInfo) (d : PatientDict) :
    applyPatient (applyPatient p d) d = applyPatient p d := by
  unfold applyPatient
  by_cases h1 : truthyOptStr d.name <;> by_cases h2 : truthyOptInt d.age <;>
    by_cases h3 : truthyOptStr d.gender <;> simp [h1, h2, h3]

lemma applyTime_idem (t : PreferredTime) (d : TimeDict) :
    applyTime (applyTime t d) d = applyTime t d := by
  unfold applyTime
  by_cases h1 : truthyOptStr d.date <;> by_cases h2 : truthyOptStr d.time_slot <;>
    simp [h1, h2]

lemma scalarUpd_idem (f : String → Bool × String) (v old : Option String) :
    scalarUpd f v (scalarUpd f v old) = scalarUpd f v old := by
  cases v with
  | none => rfl
  | some s =>
    by_cases hs : s.isEmpty <;> by_cases hf : (f s).1 <;>
      simp [scalarUpd, hs, hf]

lemma piUpd_idem (v : Option PatientDict) (old : Option PatientInfo) :
    piUpd v (piUpd v old) = piUpd v old := by
  cases v with
  | none => rfl
  | some d =>
    by_cases hd : d.truthy <;>
      by_cases hv : (validate_patient_info d).1 <;>
        cases old <;>
          simp [piUpd, hd, hv, applyPatient_idem]

lemma atUpd_idem (env : DateEnv) (v : Option TimeDict)
    (old : Option PreferredTime) :
    atUpd env v (atUpd env v old) = atUpd env v old := by
  cases v with
  | none => rfl
  | some d =>
    by_cases hd : d.truthy <;>
      by_cases hv : (validate_preferred_time env d).1 <;>
        cases old <;>
          simp [atUpd, hd, hv, applyTime_idem]

/-- C1.  Merge idempotence: for every `BookingEntities` and incoming field
map over the recognized keys, re-merging the same map against the result of
the first merge returns exactly the first merge's output — identical entities
and the identical (hence no new) error list, `merge(merge(E,M).entities, M)
== merge(E,M)`. -/
theorem merge_idempotent (env : DateEnv) (E : BookingEntities)
    (M : IncomingEntities) :
    merge_entities env (merge_entities env E M).1 M = merge_entities env E M := by
  simp [merge_entities_char, scalarUpd_idem, piUpd_idem, atUpd_idem]

/-! ### Falsy incoming values (claim layer) -/

/-- The incoming map with every falsy-valued key removed ("" for scalar keys,
an empty dict for composite keys). -/
def falsyErase (M : IncomingEntities) : IncomingEntities :=
  { booking_type := if truthyOptStr M.booking_type then M.booking_type else none,
    phone_number := if truthyOptStr M.phone_number then M.phone_number else none,
    policy_number := if truthyOptStr M.policy_number then M.policy_number else none,
    patient_info :=
      match M.patient_info with
      | some d => if d.truthy then some d else none
      | none => none,
    available_time :=
      match M.available_time with
      | some d => if d.truthy then some d else none
      | none => none }

lemma scalarUpd_erase (f : String → Bool × String) (v old : Option String) :
    scalarUpd f (if truthyOptStr v then v else none) old = scalarUpd f v old := by
  cases v with
  | none => rfl
  | some s => by_cases hs : s.isEmpty <;> simp [scalarUpd, truthyOptStr, hs]

lemma scalarErr_erase (tag : String) (f : String → Bool × String)
    (v : Option String) :
    scalarErr tag f (if truthyOptStr v then v else none) = scalarErr tag f v := by
  cases v with
  | none => rfl
  | some s => by_cases hs : s.isEmpty <;> simp [scalarErr, truthyOptStr, hs]

lemma piUpd_erase (v : Option PatientDict) (old : Option PatientInfo) :
    piUpd (match v with
           | some d => if d.truthy then some d else none
           | none => none) old = piUpd v old := by
  cases v with
  | none => rfl
  | some d => by_cases hd : d.truthy <;> simp [piUpd, hd]

lemma piErr_erase (v : Option PatientDict) :
    piErr (match v with
           | some d => if d.truthy then some d else none
           | none => none) = piErr v := by
  cases v with
  | none => rfl
  | some d => by_cases hd : d.truthy <;> simp [piErr, hd]

lemma atUpd_erase (env : DateEnv) (v : Option TimeDict)
    (old : Option PreferredTime) :
    atUpd env (match v with
               | some d => if d.truthy then some d else none
               | none => none) old = atUpd env v old := by
  cases v with
  | none => rfl
  | some d => by_cases hd : d.truthy <;> simp [atUpd, hd]

lemma atErr_erase (env : DateEnv) (v : Option TimeDict) :
    atErr env (match v with
               | some d => if d.truthy then some d else none
               | none => none) = atErr env v := by
  cases v with
  | none => rfl
  | some d => by_cases hd : d.truthy <;> simp [atErr, hd]

/-- C7.  The merge never overwrites with empty: keys whose incoming value is
falsy are skipped entirely (removing them changes nothing), an all-absent map
leaves the entities exactly as they were with no errors, and in particular an
empty incoming `phone_number` retains the prior value and records no error. -/
theorem merge_skips_falsy (env : DateEnv) (E : BookingEntities)
    (M : IncomingEntities) :
    merge_entities env E (falsyErase M) = merge_entities env E M ∧
    merge_entities env E {} = (E, []) ∧
    (merge_entities env E { phone_number := some "" }).1.phone_number =
      E.phone_number ∧
    (merge_entities env E { phone_number := some "" }).2 = [] := by
  refine ⟨?_, ?_, ?_, ?_⟩
  · simp only [merge_entities_char, falsyErase, scalarUpd_erase, scalarErr_erase,
      piUpd_erase, piErr_erase, atUpd_erase, atErr_erase]
  · obtain ⟨bt, pi, pol, at_, ph⟩ := E
    simp [merge_entities_char, scalarUpd, scalarErr, piUpd, piErr, atUpd, atErr]
  · simp [merge_entities_char, scalarUpd, scalarErr, piUpd, piErr, atUpd, atErr,
      show ("" : String).isEmpty = true from rfl]
  · simp [merge_entities_char, scalarUpd, scalarErr, piUpd, piErr, atUpd, atErr,
      show ("" : String).isEmpty = true from rfl]

/-- C8.  Extraction-failure atomicity: when the extraction service returns an
unusable (`None`) or empty result, `extract_and_merge` reports failure and
the conversation's entity record is exactly what it was — the merge step is
skipped. -/
theorem extract_failure_atomic (env : DateEnv) (E : BookingEntities) :
    extract_and_merge env E none = (false, E) ∧
    extract_and_merge env E (some {}) = (false, E) := by
  constructor
  · rfl
  · simp [extract_and_merge, IncomingEntities.truthy]

/-- C10.  The merge never mutates the caller's entity record: running the
merge body over the state that tracks the caller's object leaves that object
untouched (every write of the source targets the deep copy), and the
orchestrator replaces the conversation's record wholesale with the merge
output. -/
theorem merge_nondestructive (env : DateEnv) (c : BookingEntities)
    (M : IncomingEntities) :
    (merge_run env M { current := c, merged := c, errors := [] }).current = c ∧
    extract_and_merge env c (some M) =
      (if M.truthy then (true, (merge_entities env c M).1) else (false, c)) := by
  constructor
  · simp [merge_run, mergeKeyBookingType_char, mergeKeyPhoneNumber_char,
      mergeKeyPolicyNumber_char, mergeKeyPatientInfo_char, mergeKeyAvailableTime_char]
  · by_cases ht : M.truthy <;> simp [extract_and_merge, ht, merge_entities]

/-! ### Missing-field priority (claims about get_missing_fields) -/

lemma sublist_cond_cons (c : Bool) (x : String) (l₁ l₂ : List String)
    (h : l₁.Sublist l₂) :
    ((if c then [x] else []) ++ l₁).Sublist (x :: l₂) := by
  cases c with
  | true => simpa using List.Sublist.cons₂ x h
  | false => simpa using List.Sublist.cons x h

/-- C3 counterexample.  On a fully empty `BookingEntities` the produced list
places the policy-number label before the appointment-date label, not the
claimed date-before-policy order. -/
theorem missing_fields_order_cex :
    get_missing_fields {} =
      ["預約類型", "病人資訊", "保單號碼", "可預約時間", "電話號碼"] ∧
    get_missing_fields {} ≠
      ["預約類型", "病人資訊", "可預約時間", "保單號碼", "電話號碼"] := by
  decide

/-- C3 amended.  The missing-mandatory-field list handed to the follow-up
question generator is ordered by the fixed priority: appointment type,
patient name, policy number, appointment date, phone number (policy before
date); each label appears exactly when its field is absent, and the
generator receives exactly this list whenever it is non-empty. -/
theorem missing_fields_priority (E : BookingEntities) :
    (get_missing_fields E).Sublist
      ["預約類型", "病人資訊", "保單號碼", "可預約時間", "電話號碼"] ∧
    ("預約類型" ∈ get_missing_fields E ↔ truthyOptStr E.booking_type = false) ∧
    ("病人資訊" ∈ get_missing_fields E ↔
      E.patient_info.elim True (fun p => truthyOptStr p.name = false)) ∧
    ("保單號碼" ∈ get_missing_fields E ↔ truthyOptStr E.policy_number = false) ∧
    ("可預約時間" ∈ get_missing_fields E ↔
      E.available_time.elim True (fun t => truthyOptStr t.date = false)) ∧
    ("電話號碼" ∈ get_missing_fields E ↔ truthyOptStr E.phone_number = false) ∧
    (∀ gen : List String → String, (get_missing_fields E).isEmpty = false →
      get_missing_fields_question E gen = gen (get_missing_fields E)) := by
  obtain ⟨bt, pi, pol, at_, ph⟩ := E
  refine ⟨?_, ?_⟩
  · simp only [get_missing_fields, List.append_assoc]
    refine sublist_cond_cons _ _ _ _ (sublist_cond_cons _ _ _ _
      (sublist_cond_cons _ _ _ _ (sublist_cond_cons _ _ _ _ ?_)))
    cases (!truthyOptStr ph) <;> simp
  · cases pi <;> cases at_ <;>
      by_cases h1 : truthyOptStr bt <;> by_cases h3 : truthyOptStr pol <;>
        by_cases h5 : truthyOptStr ph <;>
          simp_all [get_missing_fields, get_missing_fields_question]

/-- Witness for `missing_fields_priority` at the fully empty entity record
and a concrete generator. -/
theorem missing_fields_priority_witness :
    (get_missing_fields {}).isEmpty = false ∧
    get_missing_fields_question {} (fun l => l.headD "") =
      (fun l : List String => l.headD "") (get_missing_fields {}) := by
  exact ⟨by decide,
    (missing_fields_priority {}).2.2.2.2.2.2 (fun l => l.headD "") (by decide)⟩

/-! ### Composite-key rejection behaviour (patient_info) -/

/-- C2 counterexample.  With incoming
`patient_info = {name: "Alice", gender: "abc"}` against empty entities, the
invalid gender blocks the valid sibling name: no sub-field is stored (the
sub-object keeps its empty defaults) and only the tagged gender error is
recorded — the claim's independent acceptance of `name` does not happen. -/
theorem patient_sibling_blocked_cex :
    (merge_entities {} {}
        { patient_info := some { name := some "Alice", gender := some "abc" } }).1.patient_info
      = some ({} : PatientInfo) ∧
    (merge_entities {} {}
        { patient_info := some { name := some "Alice", gender := some "abc" } }).2
      = ["patient_info: Valid options are: 男、女、其他"] := by
  decide

/-- C2 amended.  When the composite validator rejects the incoming
`patient_info` sub-object, the whole sub-object update is skipped: no
sub-field (valid or not) is stored, the prior sub-model is kept (a fresh
empty one is still created when it was `None`), and the tagged errors are
recorded; other top-level keys of the same incoming map are still processed
independently of the rejection. -/
theorem patient_reject_blocks_siblings (env : DateEnv) (E : BookingEntities)
    (d : PatientDict) (hd : d.truthy = true)
    (hv : (validate_patient_info d).1 = false) :
    (merge_entities env E { patient_info := some d }).1.patient_info =
      (if E.patient_info.isNone then some {} else E.patient_info) ∧
    (merge_entities env E { patient_info := some d }).2 =
      (validate_patient_info d).2.1.map (fun e => "patient_info: " ++ e) ∧
    (∀ v : Option String,
      (merge_entities env E { phone_number := v, patient_info := some d }).1.phone_number =
        (merge_entities env E { phone_number := v }).1.phone_number) := by
  refine ⟨?_, ?_, ?_⟩
  · simp [merge_entities_char, piUpd, hd, hv]
  · simp [merge_entities_char, scalarErr, piErr, atErr, hd, hv]
  · intro v
    simp [merge_entities_char]

/-- Witness for `patient_reject_blocks_siblings` at empty entities and the
incoming sub-object `{name: "Bob", gender: "xyz"}`. -/
theorem patient_reject_blocks_siblings_witness :
    (PatientDict.truthy { name := some "Bob", gender := some "xyz" } = true) ∧
    ((validate_patient_info { name := some "Bob", gender := some "xyz" }).1 = false) ∧
    (merge_entities {} {}
        { patient_info := some { name := some "Bob", gender := some "xyz" } }).1.patient_info =
      (if ({} : BookingEntities).patient_info.isNone then some {}
       else ({} : BookingEntities).patient_info) := by
  refine ⟨by decide, by decide, ?_⟩
  exact (patient_reject_blocks_siblings {} {}
    { name := some "Bob", gender := some "xyz" } (by decide) (by decide)).1

/-! ### Stored-value validation invariant -/

/-- The stored-value invariant of the claim: every stored scalar field, when
present and truthy, is a successful output of its validator; in particular a
stored gender is canonical.  (The falsy empty string is "absent" in the
sources' truthiness discipline.) -/
def EntitiesValidated (E : BookingEntities) : Prop :=
  (∀ s, E.booking_type = some s → s.isEmpty = false →
    ∃ raw, validate_appointment_type raw get_clinic_appointment_types = (true, s)) ∧
  (∀ s, E.phone_number = some s → s.isEmpty = false →
    ∃ raw, validate_phone_number raw = (true, s)) ∧
  (∀ s, E.policy_number = some s → s.isEmpty = false →
    ∃ raw, validate_policy_number raw = (true, s)) ∧
  (∀ p, E.patient_info = some p →
    (∀ n, p.name = some n → n.isEmpty = false → is_valid_chinese_name n = true) ∧
    (∀ a, p.age = some a → (validate_age_range a).1 = true) ∧
    (∀ g, p.gender = some g → g.isEmpty = false →
      (g = "男" ∨ g = "女" ∨ g = "其他")))

lemma entitiesValidated_empty : EntitiesValidated {} := by
  refine ⟨fun s h => by simp at h, fun s h => by simp at h,
    fun s h => by simp at h, fun p hp => ?_⟩
  have hp' : p = ({} : PatientInfo) := by
    simpa using hp.symm
  subst hp'
  exact ⟨fun n h => by simp at h, fun a h => by simp at h, fun g h => by simp at h⟩

lemma validate_gender_output (g r : String) (h : validate_gender g = (true, r)) :
    r = "" ∨ r = "男" ∨ r = "女" ∨ r = "其他" := by
  unfold validate_gender at h
  split_ifs at h with h1 h2 h3 h4 <;> simp_all
  tauto

lemma applyPatient_fields (p : PatientInfo) (d : PatientDict) :
    (applyPatient p d).name = (if truthyOptStr d.name then d.name else p.name) ∧
    (applyPatient p d).age = (if truthyOptInt d.age then d.age else p.age) ∧
    (applyPatient p d).gender = (if truthyOptStr d.gender then d.gender else p.gender) := by
  unfold applyPatient
  by_cases c1 : truthyOptStr d.name <;> by_cases c2 : truthyOptInt d.age <;>
    by_cases c3 : truthyOptStr d.gender <;> simp [c1, c2, c3]

lemma vpi_name_age (d : PatientDict) :
    (validate_patient_info d).2.2.name = d.name ∧
    (validate_patient_info d).2.2.age = d.age := by
  unfold validate_patient_info
  cases hg : d.gender with
  | none => simp [hg]
  | some g =>
    by_cases hge : g.isEmpty <;>
      rcases hv : validate_gender g with ⟨ok, res⟩ <;> cases ok <;>
        simp [hg, hge, hv]

lemma vpi_gender_eq (d : PatientDict) :
    (validate_patient_info d).2.2.gender =
      (match d.gender with
       | some g =>
         if g.isEmpty = false ∧ (validate_gender g).1 = true then
           some (validate_gender g).2
         else d.gender
       | none => d.gender) := by
  unfold validate_patient_info
  cases hg : d.gender with
  | none => simp [hg]
  | some g =>
    by_cases hge : g.isEmpty <;>
      rcases hv : validate_gender g with ⟨ok, res⟩ <;> cases ok <;>
        simp [hg, hge, hv]

lemma vpi_valid_name (d : PatientDict) (n : String)
    (hvalid : (validate_patient_info d).1 = true) (hn : d.name = some n)
    (hne : n.isEmpty = false) : is_valid_chinese_name n = true := by
  by_cases hv : is_valid_chinese_name n
  · exact hv
  · exfalso
    simp [validate_patient_info, hn, hne, hv] at hvalid

lemma vpi_valid_age (d : PatientDict) (a : Int)
    (hvalid : (validate_patient_info d).1 = true) (ha : d.age = some a) :
    (validate_age_range a).1 = true := by
  rcases hr : validate_age_range a with ⟨ok, msg⟩
  cases ok with
  | true => rfl
  | false =>
    exfalso
    simp [validate_patient_info, ha, hr] at hvalid

lemma vpi_valid_gender_branch (d : PatientDict) (g : String)
    (hvalid : (validate_patient_info d).1 = true) (hg0 : d.gender = some g)
    (hne : g.isEmpty = false) : (validate_gender g).1 = true := by
  rcases hv : validate_gender g with ⟨ok, res⟩
  cases ok with
  | true => rfl
  | false =>
    exfalso
    simp [validate_patient_info, hg0, hne, hv] at hvalid

lemma vpi_valid_gender (d : PatientDict) (g : String)
    (hvalid : (validate_patient_info d).1 = true)
    (hg : (validate_patient_info d).2.2.gender = some g)
    (hne : g.isEmpty = false) : g = "男" ∨ g = "女" ∨ g = "其他" := by
  rw [vpi_gender_eq] at hg
  cases hg0 : d.gender with
  | none => rw [hg0] at hg; simp at hg
  | some g0 =>
    rw [hg0] at hg
    by_cases hge : g0.isEmpty
    · simp [hge] at hg
      rw [← hg] at hne
      simp_all
    · have hok : (validate_gender g0).1 = true :=
        vpi_valid_gender_branch d g0 hvalid hg0 (by simpa using hge)
      simp [hge, hok] at hg
      have hout := validate_gender_output g0 (validate_gender g0).2
        (by rw [← hok])
      rw [hg] at hout
      rcases hout with h | h
      · rw [h] at hne
        exact absurd hne (by decide)
      · exact h

lemma scalarUpd_validated (f : String → Bool × String) (v old : Option String)
    (hold : ∀ s, old = some s → s.isEmpty = false → ∃ raw, f raw = (true, s)) :
    ∀ s, scalarUpd f v old = some s → s.isEmpty = false →
      ∃ raw, f raw = (true, s) := by
  intro s hs hne
  cases v with
  | none => exact hold s hs hne
  | some w =>
    by_cases hw : w.isEmpty
    · simp [scalarUpd, hw] at hs
      exact hold s hs hne
    · by_cases hf : (f w).1
      · simp [scalarUpd, hw, hf] at hs
        refine ⟨w, ?_⟩
        have hfw : f w = ((f w).1, (f w).2) := rfl
        rw [hfw, hf, hs]
      · simp [scalarUpd, hw, hf] at hs
        exact hold s hs hne

lemma applyPatient_validated (q : PatientInfo) (d : PatientDict)
    (hvv : (validate_patient_info d).1 = true)
    (hqn : ∀ n, q.name = some n → n.isEmpty = false → is_valid_chinese_name n = true)
    (hqa : ∀ a, q.age = some a → (validate_age_range a).1 = true)
    (hqg : ∀ g, q.gender = some g → g.isEmpty = false →
      (g = "男" ∨ g = "女" ∨ g = "其他")) :
    (∀ n, (applyPatient q (validate_patient_info d).2.2).name = some n →
      n.isEmpty = false → is_valid_chinese_name n = true) ∧
    (∀ a, (applyPatient q (validate_patient_info d).2.2).age = some a →
      (validate_age_range a).1 = true) ∧
    (∀ g, (applyPatient q (validate_patient_info d).2.2).gender = some g →
      g.isEmpty = false → (g = "男" ∨ g = "女" ∨ g = "其他")) := by
  obtain ⟨han, haa, hag⟩ := applyPatient_fields q (validate_patient_info d).2.2
  refine ⟨?_, ?_, ?_⟩
  · intro n hn hne
    rw [han] at hn
    by_cases ht : truthyOptStr (validate_patient_info d).2.2.name
    · rw [if_pos ht, (vpi_name_age d).1] at hn
      exact vpi_valid_name d n hvv hn hne
    · rw [if_neg ht] at hn
      exact hqn n hn hne
  · intro a ha
    rw [haa] at ha
    by_cases ht : truthyOptInt (validate_patient_info d).2.2.age
    · rw [if_pos ht, (vpi_name_age d).2] at ha
      exact vpi_valid_age d a hvv ha
    · rw [if_neg ht] at ha
      exact hqa a ha
  · intro g hg hne
    rw [hag] at hg
    by_cases ht : truthyOptStr (validate_patient_info d).2.2.gender
    · rw [if_pos ht] at hg
      exact vpi_valid_gender d g hvv hg hne
    · rw [if_neg ht] at hg
      exact hqg g hg hne

lemma piUpd_validated (v : Option PatientDict) (old : Option PatientInfo)
    (hold : ∀ p, old = some p →
      (∀ n, p.name = some n → n.isEmpty = false → is_valid_chinese_name n = true) ∧
      (∀ a, p.age = some a → (validate_age_range a).1 = true) ∧
      (∀ g, p.gender = some g → g.isEmpty = false →
        (g = "男" ∨ g = "女" ∨ g = "其他"))) :
    ∀ p, piUpd v old = some p →
      (∀ n, p.name = some n → n.isEmpty = false → is_valid_chinese_name n = true) ∧
      (∀ a, p.age = some a → (validate_age_range a).1 = true) ∧
      (∀ g, p.gender = some g → g.isEmpty = false →
        (g = "男" ∨ g = "女" ∨ g = "其他")) := by
  intro p hp
  cases v with
  | none => exact hold p hp
  | some d =>
    by_cases hd : d.truthy
    · by_cases hvv : (validate_patient_info d).1
      · cases old with
        | none =>
          simp [piUpd, hd, hvv] at hp
          obtain ⟨h1, h2, h3⟩ := applyPatient_validated {} d hvv
            (fun n hn => by simp at hn) (fun a ha => by simp at ha)
            (fun g hg => by simp at hg)
          exact hp ▸ ⟨h1, h2, h3⟩
        | some q0 =>
          simp [piUpd, hd, hvv] at hp
          obtain ⟨h1, h2, h3⟩ := hold q0 rfl
          obtain ⟨h1n, h2n, h3n⟩ := applyPatient_validated q0 d hvv h1 h2 h3
          exact hp ▸ ⟨h1n, h2n, h3n⟩
      · cases old with
        | none =>
          simp [piUpd, hd, hvv] at hp
          refine hp ▸ ⟨fun n hn => by simp at hn, fun a ha => by simp at ha,
            fun g hg => by simp at hg⟩
        | some q0 =>
          simp [piUpd, hd, hvv] at hp
          exact hp ▸ hold q0 rfl
    · simp [piUpd, hd] at hp
      exact hold p hp

/-- C6 amended.  The entity merge preserves the stored-value invariant: if
every stored scalar of `E` is a successful validator output (gender
canonical), the same holds of `merge(E, M).entities` for every incoming map —
the merge writes only validator outputs.  (The conversation manager's
`update_entities`, by contrast, writes raw values; see the counterexample.) -/
theorem merge_preserves_validated (env : DateEnv) (E : BookingEntities)
    (M : IncomingEntities) (h : EntitiesValidated E) :
    EntitiesValidated (merge_entities env E M).1 := by
  obtain ⟨hbt, hph, hpol, hpi⟩ := h
  rw [merge_entities_char]
  exact ⟨scalarUpd_validated _ _ _ hbt, scalarUpd_validated _ _ _ hph,
    scalarUpd_validated _ _ _ hpol, piUpd_validated _ _ hpi⟩

/-- Witness for `merge_preserves_validated`: empty entities satisfy the
invariant, and it still holds after merging a phone number and a gender. -/
theorem merge_preserves_validated_witness :
    EntitiesValidated {} ∧
    EntitiesValidated
      (merge_entities {} {}
        { phone_number := some "+852 9123 4567",
          patient_info := some { gender := some "male" } }).1 := by
  exact ⟨entitiesValidated_empty,
    merge_preserves_validated {} {} _ entitiesValidated_empty⟩

/-- C6 counterexample.  The conversation manager's entity-update step does
NOT preserve the stored-value invariant: `update_entities` writes the raw
user string through `setattr` without any validation, so a non-canonical
gender `"xyz"` ends up stored — the claim's "every core operation" is false
for this operation. -/
theorem update_entities_raw_write_cex :
    EntitiesValidated {} ∧
    (update_entities {} { patient_info := some { gender := some "xyz" } }).patient_info =
      some { name := none, age := none, gender := some "xyz" } ∧
    ¬ EntitiesValidated
        (update_entities {} { patient_info := some { gender := some "xyz" } }) := by
  refine ⟨entitiesValidated_empty, by decide, ?_⟩
  rintro ⟨-, -, -, hpat⟩
  have h := (hpat { name := none, age := none, gender := some "xyz" }
    (by decide)).2.2 "xyz" rfl (by decide)
  rcases h with h | h | h <;> simp at h

/-! ### Phone-number validation (claim layer) -/

lemma digit_keep (c : Char) (h : c.isDigit = true) :
    (!(isPyWhitespace c || c = '-')) = true := by
  unfold Char.isDigit at h
  simp at h
  obtain ⟨h1, h2⟩ := h
  have h1n : 48 ≤ c.toNat := h1
  have h2n : c.toNat ≤ 57 := h2
  have hw : isPyWhitespace c = false := by
    simp only [isPyWhitespace, Bool.or_eq_false_iff, decide_eq_false_iff_not]
    omega
  have hd2 : c ≠ '-' := by
    intro he
    subst he
    simp at h1n
  simp [hw, hd2]

lemma matchesHK_digits (w : String) (h : matchesHK w = true) :
    ∀ c ∈ w.toList, c.isDigit = true := by
  unfold matchesHK at h
  rcases hw : w.toList with _ | ⟨c, rest⟩ <;> rw [hw] at h
  · simp at h
  · simp only [Bool.and_eq_true, decide_eq_true_eq] at h
    obtain ⟨⟨⟨h1, h2⟩, h3⟩, h4⟩ := h
    intro a ha
    rcases List.mem_cons.mp ha with rfl | ha
    · have h1n : 50 ≤ a.toNat := h1
      have h2n : a.toNat ≤ 57 := h2
      simp [Char.isDigit]
      exact ⟨(show (48 : Nat) ≤ a.toNat by omega), h2n⟩
    · exact List.all_eq_true.mp h4 a ha

lemma removeSpaceDash_eq_self (s : String)
    (h : ∀ c ∈ s.toList, (!(isPyWhitespace c || c = '-')) = true) :
    removeSpaceDash s = s := by
  unfold removeSpaceDash
  rw [List.filter_eq_self.mpr h]
  cases s
  rfl

lemma removeSpaceDash_idem (s : String) :
    removeSpaceDash (removeSpaceDash s) = removeSpaceDash s := by
  unfold removeSpaceDash
  simp [List.filter_filter]

lemma toList_append_str (a b : String) :
    (a ++ b).toList = a.toList ++ b.toList := by
  simp [String.toList, String.data_append]

lemma strip852_plus (w : String) : strip852 ("+852" ++ w) = w := by
  cases w with
  | mk l => rfl

lemma strip852_bare (w : String) : strip852 ("852" ++ w) = w := by
  cases w with
  | mk l => rfl

lemma strip852_no852 (w : String) (hd : matchesHK w = true)
    (h : w.toList.take 3 ≠ ['8', '5', '2']) : strip852 w = w := by
  unfold strip852
  split
  · rename_i heq
    exfalso
    unfold matchesHK at hd
    rw [heq] at hd
    simp at hd
  · rename_i heq
    exact absurd (by rw [heq]; rfl) h
  · rfl

lemma isEmpty_false_of_ne (s : String) (h : s ≠ "") : s.isEmpty = false := by
  rw [Bool.eq_false_iff]
  intro ht
  exact h ((String.isEmpty_iff s).mp ht)

lemma append_ne_empty (w : String) (c : Char) (p : String)
    (hp : p.toList = c :: p.toList.tail) : p ++ w ≠ "" := by
  intro he
  have := congrArg String.toList he
  rw [toList_append_str, hp] at this
  simp at this

lemma keep852plus : ∀ c ∈ ("+852" : String).toList,
    (!(isPyWhitespace c || c = '-')) = true := by decide

lemma keep852 : ∀ c ∈ ("852" : String).toList,
    (!(isPyWhitespace c || c = '-')) = true := by decide

/-- C9 counterexample.  `"85221234"` is a valid 8-digit Hong-Kong number
(matches `[2-9][0-9]{7}`) written with no prefix, yet `validate_phone_number`
rejects it: the unconditional strip of a leading `852` eats the first three
digits and leaves a 5-digit remainder. -/
theorem phone_852_cex :
    matchesHK "85221234" = true ∧
    validate_phone_number "85221234" =
      (false, "Please provide a valid Hong Kong phone number.") := by
  decide

/-- C9 amended.  After removing spaces/dashes, one leading `+852` or `852` is
stripped unconditionally; acceptance holds iff the remainder matches
`[2-9][0-9]{7}`.  Concretely: every valid 8-digit number written with a
`+852` or `852` prefix is accepted and the bare digits returned; a bare
number is accepted exactly when its digits do not begin with `852`;
validation is invariant under inserted spaces/dashes; and any input whose
stripped remainder fails the pattern is rejected. -/
theorem validate_phone_amended :
    (∀ w : String, matchesHK w = true →
      validate_phone_number ("+852" ++ w) = (true, w) ∧
      validate_phone_number ("852" ++ w) = (true, w) ∧
      (w.toList.take 3 ≠ ['8', '5', '2'] → validate_phone_number w = (true, w))) ∧
    (∀ s : String, s ≠ "" → removeSpaceDash s ≠ "" →
      validate_phone_number s = validate_phone_number (removeSpaceDash s)) ∧
    (∀ s : String, s ≠ "" →
      matchesHK (strip852 (removeSpaceDash s)) = false →
      (validate_phone_number s).1 = false) := by
  refine ⟨?_, ?_, ?_⟩
  · intro w hmk
    have hdig := matchesHK_digits w hmk
    have hkeep : ∀ c ∈ w.toList, (!(isPyWhitespace c || c = '-')) = true :=
      fun c hc => digit_keep c (hdig c hc)
    have hrw : removeSpaceDash w = w := removeSpaceDash_eq_self w hkeep
    have hwne : w ≠ "" := by
      intro he
      rw [he] at hmk
      simp [matchesHK] at hmk
    refine ⟨?_, ?_, ?_⟩
    · have hne : ("+852" ++ w) ≠ "" := append_ne_empty w '+' "+852" rfl
      have hr2 : removeSpaceDash ("+852" ++ w) = "+852" ++ w := by
        refine removeSpaceDash_eq_self _ ?_
        intro c hc
        rw [toList_append_str] at hc
        rcases List.mem_append.mp hc with hc | hc
        · exact keep852plus c hc
        · exact hkeep c hc
      simp [validate_phone_number, isEmpty_false_of_ne _ hne, hr2, strip852_plus, hmk]
    · have hne : ("852" ++ w) ≠ "" := append_ne_empty w '8' "852" rfl
      have hr2 : removeSpaceDash ("852" ++ w) = "852" ++ w := by
        refine removeSpaceDash_eq_self _ ?_
        intro c hc
        rw [toList_append_str] at hc
        rcases List.mem_append.mp hc with hc | hc
        · exact keep852 c hc
        · exact hkeep c hc
      simp [validate_phone_number, isEmpty_false_of_ne _ hne, hr2, strip852_bare, hmk]
    · intro h852
      simp [validate_phone_number, isEmpty_false_of_ne _ hwne, hrw,
        strip852_no852 w hmk h852, hmk]
  · intro s hs hrs
    have h1 := isEmpty_false_of_ne _ hs
    have h2 := isEmpty_false_of_ne _ hrs
    simp [validate_phone_number, h1, h2, removeSpaceDash_idem]
  · intro s hs hm
    simp [validate_phone_number, isEmpty_false_of_ne _ hs, hm]

/-- Witness for `validate_phone_amended` at concrete numbers. -/
theorem validate_phone_amended_witness :
    matchesHK "91234567" = true ∧
    validate_phone_number ("+852" ++ "91234567") = (true, "91234567") ∧
    validate_phone_number ("9123 4567" : String) =
      validate_phone_number (removeSpaceDash "9123 4567") ∧
    (validate_phone_number "85221234").1 = false := by
  refine ⟨by decide, ?_, ?_, ?_⟩
  · exact (validate_phone_amended.1 "91234567" (by decide)).1
  · exact validate_phone_amended.2.1 "9123 4567" (by decide) (by decide)
  · exact validate_phone_amended.2.2 "85221234" (by decide) (by decide)

/-! ### Availability-engine claims -/

lemma mem_suggestLoop (busy : List (Nat × Nat)) (tmax s : Nat) :
    ∀ fuel cur, tmax ≤ 60 * fuel + cur →
      (s ∈ suggestLoop busy tmax cur fuel ↔
        (cur ≤ s ∧ (s - cur) % 60 = 0 ∧ s + 60 ≤ tmax ∧
         (9 ≤ hourOf s ∧ hourOf s < 18) ∧
         hasOverlap busy s (s + 60) = false)) := by
  intro fuel
  induction fuel with
  | zero =>
    intro cur hle
    simp only [suggestLoop, List.not_mem_nil, false_iff, not_and]
    intro hcs hmod hfit
    omega
  | succ n ih =>
    intro cur hle
    have hih := ih (cur + 60) (by omega)
    rw [suggestLoop]
    simp only [SUGGESTION_DURATION_MINUTES, BUSINESS_HOURS_START, BUSINESS_HOURS_END]
    by_cases hc : cur + 60 ≤ tmax
    · rw [if_pos hc]
      by_cases hbh : (9 ≤ hourOf cur ∧ hourOf cur < 18)
      · rw [if_pos (by simpa using hbh)]
        by_cases hov : hasOverlap busy cur (cur + 60) = true
        · rw [if_pos hov, hih]
          constructor
          · rintro ⟨h1, h2, h3, h4, h5⟩
            exact ⟨by omega, by omega, h3, h4, h5⟩
          · rintro ⟨h1, h2, h3, h4, h5⟩
            by_cases hsc : s = cur
            · subst hsc
              rw [h5] at hov
              simp at hov
            · exact ⟨by omega, by omega, h3, h4, h5⟩
        · rw [if_neg hov, List.mem_cons, hih]
          constructor
          · rintro (rfl | ⟨h1, h2, h3, h4, h5⟩)
            · exact ⟨by omega, by omega, hc, hbh, by simpa using hov⟩
            · exact ⟨by omega, by omega, h3, h4, h5⟩
          · rintro ⟨h1, h2, h3, h4, h5⟩
            by_cases hsc : s = cur
            · exact Or.inl hsc
            · exact Or.inr ⟨by omega, by omega, h3, h4, h5⟩
      · rw [if_neg (by simpa using hbh), hih]
        constructor
        · rintro ⟨h1, h2, h3, h4, h5⟩
          exact ⟨by omega, by omega, h3, h4, h5⟩
        · rintro ⟨h1, h2, h3, h4, h5⟩
          by_cases hsc : s = cur
          · subst hsc
            exact absurd h4 hbh
          · exact ⟨by omega, by omega, h3, h4, h5⟩
    · rw [if_neg hc]
      simp only [List.not_mem_nil, false_iff, not_and]
      intro hcs hmod hfit
      omega

/-- C4.  Half-open overlap correctness: a candidate slot of the uniform-slot
loop (on the 60-minute grid from the rounded `time_min`, fitting the window,
inside business hours) is excluded on account of busyness iff some busy
interval `[bs, be)` satisfies `bs < s + 60` and `s < be` (strict); and an
abutting busy interval ending exactly at `s` never excludes the slot. -/
theorem slot_exclusion (tmin tmax s k : Nat)
    (hs : s = roundUpHour tmin + 60 * k) (hfit : s + 60 ≤ tmax)
    (hb1 : 9 ≤ hourOf s) (hb2 : hourOf s < 18) :
    (∀ busy : List (Nat × Nat),
      (s ∉ suggest_meeting_times busy tmin tmax ↔
        ∃ p ∈ busy, p.1 < s + 60 ∧ s < p.2)) ∧
    (∀ bs : Nat, s ∈ suggest_meeting_times [(bs, s)] tmin tmax) := by
  have hmem : ∀ busy : List (Nat × Nat),
      (s ∈ suggest_meeting_times busy tmin tmax ↔
        hasOverlap busy s (s + 60) = false) := by
    intro busy
    rw [suggest_meeting_times,
      mem_suggestLoop busy tmax s tmax (roundUpHour tmin) (by omega)]
    constructor
    · rintro ⟨-, -, -, -, h5⟩
      exact h5
    · intro h5
      exact ⟨by omega, by omega, hfit, ⟨hb1, hb2⟩, h5⟩
  constructor
  · intro busy
    rw [hmem busy]
    simp [hasOverlap]
  · intro bs
    rw [hmem [(bs, s)]]
    simp [hasOverlap]

/-- Witness for `slot_exclusion` at the 10:00 slot of a 09:00–18:00 window:
a busy interval 10:30–11:40 excludes it; an abutting interval ending at
10:00 does not. -/
theorem slot_exclusion_witness :
    (600 ∉ suggest_meeting_times [(630, 700)] 540 1080 ↔
      ∃ p ∈ [((630 : Nat), (700 : Nat))], p.1 < 600 + 60 ∧ 600 < p.2) ∧
    600 ∈ suggest_meeting_times [(55, 600)] 540 1080 := by
  have h := slot_exclusion 540 1080 600 1 (by decide) (by decide)
    (by decide) (by decide)
  exact ⟨h.1 [(630, 700)], h.2 55⟩

/-- C5.  Business-hour boundary enumeration: with business hours 9–18,
60-minute slots, window `[09:00, 18:00)` (minutes 540–1080) and no busy
intervals, exactly the nine slots 09:00..17:00 are produced in increasing
order, with none at 08:00 or 18:00; widening the window to 19:00 still
excludes the 18:00 slot (only the start hour is checked); and a `time_min`
with sub-hour precision is first rounded up to the next full hour. -/
theorem business_hours_enumeration :
    suggest_meeting_times [] 540 1080 =
      [540, 600, 660, 720, 780, 840, 900, 960, 1020] ∧
    suggest_meeting_times [] 540 1140 =
      [540, 600, 660, 720, 780, 840, 900, 960, 1020] ∧
    List.Sorted (· < ·) (suggest_meeting_times [] 540 1080) ∧
    (∀ (busy : List (Nat × Nat)) (tmin tmax : Nat), tmin % 60 ≠ 0 →
      suggest_meeting_times busy tmin tmax =
        suggest_meeting_times busy ((tmin / 60 + 1) * 60) tmax) := by
  refine ⟨by decide, by decide, by decide, ?_⟩
  intro busy tmin tmax h
  have h60 : ((tmin / 60 + 1) * 60) % 60 = 0 := by omega
  simp [suggest_meeting_times, roundUpHour, h, h60]

/-- Witness for `business_hours_enumeration` at a 09:05 `time_min`. -/
theorem business_hours_enumeration_witness :
    (545 % 60 ≠ 0) ∧
    suggest_meeting_times [] 545 1080 =
      suggest_meeting_times [] ((545 / 60 + 1) * 60) 1080 := by
  exact ⟨by decide, business_hours_enumeration.2.2.2 [] 545 1080 (by decide)⟩
